import Mathlib

/-!
Verification of the pixoo_api image/animation codec (pixooapi/pixoo.py).

Shallow embedding conventions: Python integers and single bytes are `Nat`,
byte strings and pixel buffers are `List Nat`, Python exceptions are the
explicit `PyError` type and fallible paths return `Except PyError`.
External library calls (AES decryption, LZO decompression, Pillow
resizing) enter as function parameters or as interface-level models that
are documented at each use site; everything else is translated directly
from the Python source.
-/

/-- An RGB pixel triple, as handed to and produced by PIL getdata and
putdata. -/
abbrev RGB : Type := Nat × Nat × Nat

/-- The Python exceptions the codec paths can raise.  The first five model
runtime exceptions raised by the interpreter or by libraries
(ZeroDivisionError, ValueError, IndexError, TypeError from PIL putdata,
struct.error, lzo.error); the last two model the two explicit
`raise Exception(...)` arms of the type dispatch in `_binFileToGIF`. -/
inductive PyError where
  | zeroDivisionError
  | valueError
  | indexError
  | typeError
  | structError
  | lzoError
  | unknownFileType
  | filetypeNotSupported
  deriving DecidableEq, Repr

/-- Python `range(0, stop, step)` for a positive `step`: the ascending
multiples of `step` below `stop`. -/
def pyRange (stop step : Nat) : List Nat :=
  (List.range ((stop + step - 1) / step)).map (· * step)

/-- Python slice `l[i : i + n]` on a list. -/
def pySlice (l : List α) (i n : Nat) : List α :=
  (l.drop i).take n

/-- The inner comprehension of `_imageDataToGIF`:
`[chunk[i:i + 3] for i in range(0, len(chunk) - 1, 3)]`. -/
def pixelChunksOf (chunk : List Nat) : List (List Nat) :=
  (pyRange (chunk.length - 1) 3).map (fun i => pySlice chunk i 3)

/-- The tuple-building loop of `_imageDataToGIF`:
`pixelData.append((pc[0], pc[1], pc[2]))` for each `pc`; indexing a slice
shorter than three bytes raises IndexError. -/
def tuplesOf : List (List Nat) → Except PyError (List RGB)
  | [] => .ok []
  | pc :: rest =>
    match pc with
    | r :: g :: b :: _ => (tuplesOf rest).map (fun t => (r, g, b) :: t)
    | _ => .error .indexError

/-- Pixel extraction for one chunk of `_imageDataToGIF`. -/
def chunkPixels (chunk : List Nat) : Except PyError (List RGB) :=
  tuplesOf (pixelChunksOf chunk)

/-- The outer comprehension of `_imageDataToGIF`:
`[data["FileData"][i:i + chunkSize] for i in range(0, len(..), chunkSize)]`. -/
def chunkDataOf (payload : List Nat) (chunkSize : Nat) : List (List Nat) :=
  (pyRange payload.length chunkSize).map (fun i => pySlice payload i chunkSize)

/-- The frame-building loop of `_imageDataToGIF`.  For each chunk it
extracts pixel tuples, then models `Image.new("RGB", (frameSize,
frameSize))` followed by `img.putdata(pixelData)`; Pillow putdata raises
TypeError (too many data entries) when the data is longer than the image
has pixels, which is the only putdata behaviour the codec can trigger.
The stored frame is the pixel list handed to putdata. -/
def buildFrames (frameSize : Nat) : List (List Nat) → Except PyError (List (List RGB))
  | [] => .ok []
  | chunk :: rest =>
    match chunkPixels chunk with
    | .error e => .error e
    | .ok pd =>
      if frameSize * frameSize < pd.length then .error .typeError
      else (buildFrames frameSize rest).map (fun fs => pd :: fs)

/-- The decoded-asset dictionary built by `_binFileToGIF` and consumed by
`_imageDataToGIF` (keys Width, Height, PicCount, Speed, FileData). -/
structure ImageData where
  width : Nat
  height : Nat
  picCount : Nat
  speed : Nat
  fileData : List Nat
  deriving DecidableEq, Repr

/-- The pixel raster of one constructed image: `Image.new("RGB",
(frameSize, frameSize))` starts all black, and `putdata` fills from the
upper left, so the remaining pixels stay (0, 0, 0). -/
def renderFrame (frameSize : Nat) (pd : List RGB) : List RGB :=
  pd ++ List.replicate (frameSize * frameSize - pd.length) (0, 0, 0)

/-- Worker for `mergeFrames`: `cur` is the previously kept frame and
`dur` its accumulated duration.  Pillow GifImagePlugin
`_write_multiple_frames` compares each incoming frame against the
previously kept frame ("This frame is identical to the previous frame"),
drops it when the rasters are identical and — when the shared duration
argument is nonzero, a Python truthiness check — adds that duration to
the kept frame. -/
def mergeAux (frameSize speed : Nat) (cur : List RGB) (dur : Nat) :
    List (List RGB) → List (List RGB × Nat)
  | [] => [(renderFrame frameSize cur, dur)]
  | f :: rest =>
    if renderFrame frameSize f = renderFrame frameSize cur then
      mergeAux frameSize speed cur (dur + if speed = 0 then 0 else speed) rest
    else
      (renderFrame frameSize cur, dur) :: mergeAux frameSize speed f speed rest

/-- What the Pillow GIF writer writes for a frame sequence saved with a
single shared `duration`: identical consecutive frames are coalesced
with their durations combined.  When everything merges into one frame,
`_write_multiple_frames` hands the combined duration back and the save
falls through to `_write_single_frame`, so in every case the written
artifact is the merged list. -/
def mergeFrames (frameSize speed : Nat) :
    List (List RGB) → List (List RGB × Nat)
  | [] => []
  | f :: rest => mergeAux frameSize speed f speed rest

/-- What `_imageDataToGIF` makes `firstImage.save(...)` write: the
computed frame dimension, the reconstructed frame list `images`, the
frames actually written (`savedFrames`) — the sequence `firstImage`
followed by `append_images = images` after the Pillow GIF writer merges
identical consecutive frames, each with its final duration — and the
`loop` argument passed to the writer (0, which in the GIF format means
loop forever). -/
structure GIFOutput where
  frameSize : Nat
  frames : List (List RGB)
  savedFrames : List (List RGB × Nat)
  loop : Nat
  deriving DecidableEq, Repr

/-- Direct model of `_imageDataToGIF` (pixoo.py lines 2396-2445).
`chunkSize = int(len(FileData) / int(PicCount))` raises
ZeroDivisionError when PicCount is 0 and otherwise truncates;
`frameSize = int(math.sqrt(chunkSize / 3))` truncates; a zero chunk size
makes `range(0, len, 0)` raise ValueError; `images[0]` on an empty frame
list raises IndexError.  The save call passes `firstImage` (which is
`images[0]`) plus `append_images=images` with `duration=Speed` and
`loop=0`; since the duplicated first frame is always identical to the
base image, Pillow coalesces it (adding its duration to the first
written frame when Speed is nonzero), and `savedFrames` is the merged
sequence the writer actually emits. -/
def imageDataToGIF (data : ImageData) : Except PyError GIFOutput :=
  if data.picCount = 0 then .error .zeroDivisionError
  else
    let chunkSize := data.fileData.length / data.picCount
    let frameSize := Nat.sqrt (chunkSize / 3)
    if chunkSize = 0 then .error .valueError
    else
      match buildFrames frameSize (chunkDataOf data.fileData chunkSize) with
      | .error e => .error e
      | .ok images =>
        match images with
        | [] => .error .indexError
        | first :: _ =>
          .ok ⟨frameSize, images,
            mergeFrames frameSize data.speed (first :: images), 0⟩

/-- Direct model of the header dispatch of `_binFileToGIF` (pixoo.py
lines 2479-2563), parameterised by the external collaborators: `decrypt`
models `AES.new(key, AES.MODE_CBC, IV=iv).decrypt`, and `lzoContent`
models the LZO stream contents (`none` for a malformed stream).  The
call `lzo.decompress(data, False, n)` is modelled at its interface:
python-lzo raises lzo.error unless the stream decompresses to exactly
`n` bytes.  The match subject in the source is `f.read(1).hex()`, which
is a lowercase string, so of the string arms only lowercase or digit-only
literals can ever match: `"08"`, `"09"`, `"11"`, `"1a"`, `"00"`, and of
the combined not-yet-supported arm only `"12"`, `"13"`, `"07"`, `"16"`
and `"17"`; the arms `"1E"`, `"0C"`, `"0F"`, `"OD"` and the duplicated
uppercase `"1A"` are unreachable, so bytes 0x1e and 0x0c fall through to
the wildcard arm that raises the unknown-file-type error.  A truncated
header raises ValueError (via `int("", 16)`), IndexError (indexing a
short speed read) or struct.error (a short `unpack(">BBI", ...)` read). -/
def binFileDecode (decrypt : List Nat → List Nat)
    (lzoContent : List Nat → Option (List Nat)) :
    List Nat → Except PyError ImageData
  | 0x08 :: rest => .ok ⟨16, 16, 1, 1, decrypt rest⟩
  | 0x09 :: rest =>
    match rest with
    | count :: s0 :: s1 :: payload =>
      .ok ⟨16, 16, count, (s1 &&& 255) ||| (s0 <<< 8), decrypt payload⟩
    | [] => .error .valueError
    | _ => .error .indexError
  | 0x11 :: rest =>
    match rest with
    | w :: h :: _ :: _ :: _ :: _ :: payload =>
      match lzoContent (decrypt payload) with
      | none => .error .lzoError
      | some out =>
        if out.length = (w * 16) * (h * 16) * 3 then
          .ok ⟨w * 16, h * 16, 1, 0, out⟩
        else .error .lzoError
    | _ => .error .structError
  | t :: _ =>
    if t = 0x1a ∨ t = 0x00 ∨ t = 0x12 ∨ t = 0x13 ∨ t = 0x07 ∨ t = 0x16 ∨ t = 0x17
    then .error .filetypeNotSupported
    else .error .unknownFileType
  | [] => .error .unknownFileType

/-- One frame of a source image after `img.convert(mode="RGB")`: its
dimensions, its row-major RGB contents (as PIL getdata returns them) and
the optional `img.info["duration"]` of that frame. -/
structure SourceFrame where
  width : Nat
  height : Nat
  pixels : List RGB
  duration : Option Nat
  deriving DecidableEq, Repr

/-- A source image opened by `_fileToFrames`: whether the PIL object has
an `n_frames` attribute (animated formats do, plain static formats do
not) and its frames in order.  When `hasNFrames` is true, `n_frames` is
the length of `frames`. -/
structure SourceImage where
  hasNFrames : Bool
  frames : List SourceFrame
  deriving DecidableEq, Repr

/-- The `GIFData` named tuple of pixooapi/types.py, with `data` holding
the base64 character stream (see `b64Encode`). -/
structure GIFData where
  size : Nat
  offset : Nat
  id : Nat
  speed : Nat
  totalFrames : Nat
  data : List Nat
  deriving DecidableEq, Repr

/-- The flattening comprehension of `_fileToFrames`:
`[item for p in list(imgrgb.getdata()) for item in p]`. -/
def flattenRGB : List RGB → List Nat
  | [] => []
  | (r, g, b) :: rest => r :: g :: b :: flattenRGB rest

/-- Model of `base64.b64encode` on a byte list.  Characters of the
base64 alphabet are represented by their six-bit values 0..63 and the
padding character `=` by 64; this renaming of the alphabet is the only
abstraction, the bit packing is exact. -/
def b64Encode : List Nat → List Nat
  | a :: b :: c :: rest =>
    (a / 4) :: ((a % 4) * 16 + b / 16) :: ((b % 16) * 4 + c / 64) :: (c % 64)
      :: b64Encode rest
  | [a, b] => [a / 4, (a % 4) * 16 + b / 16, (b % 16) * 4, 64]
  | [a] => [a / 4, (a % 4) * 16, 64, 64]
  | [] => []

/-- Model of `base64.b64decode` on well-formed input (padding only at the
end), inverse bit packing of `b64Encode` over the same renamed
alphabet. -/
def b64Decode : List Nat → List Nat
  | w :: x :: y :: z :: rest =>
    if y = 64 then [w * 4 + x / 16]
    else if z = 64 then [w * 4 + x / 16, (x % 16) * 16 + y / 4]
    else (w * 4 + x / 16) :: ((x % 16) * 16 + y / 4) :: ((y % 4) * 64 + z)
      :: b64Decode rest
  | _ => []

/-- The frame-count bound of `_fileToFrames`: 1 when the image has no
`n_frames` attribute, otherwise `n_frames` capped at `maxFrames`. -/
def totalFramesOf (img : SourceImage) (maxFrames : Nat) : Nat :=
  if !img.hasNFrames then 1
  else if maxFrames < img.frames.length then maxFrames
  else img.frames.length

/-- Direct model of `_fileToFrames` (pixoo.py lines 1554-1629),
parameterised by `resizeContent`, the pixel contents produced by the
external Pillow pair `imgrgb.thumbnail(size=(size, size), resample=..)`
followed by `imgrgb = ImageOps.pad(image=imgrgb, size=(size, size))`;
ImageOps.pad returns an image of exactly the requested size, so the
resized frame has dimensions `size` by `size`.  The branch is entered
only when `imgrgb.size[0] > size or imgrgb.size[1] > size`.  Each packet
carries `size=imgrgb.size[0]` (the width after the optional resize),
`offset=frame`, the caller-supplied `id`, the frame duration (1000 when
the source provides none), the retained frame total, and the base64
encoding of the flattened pixels.  `img.seek(frame)` is always within
range because the loop bound never exceeds `n_frames`. -/
def fileToFrames (resizeContent : SourceFrame → List RGB)
    (img : SourceImage) (id : Nat) (size maxFrames : Nat) : List GIFData :=
  let totalFrames := totalFramesOf img maxFrames
  (List.range totalFrames).map (fun frame =>
    let f := img.frames.getD frame ⟨0, 0, [], none⟩
    let imgrgb :=
      if size < f.width ∨ size < f.height then
        ⟨size, size, resizeContent f, f.duration⟩
      else f
    let duration := match f.duration with | some d => d | none => 1000
    ⟨imgrgb.width, frame, id, duration, totalFrames,
      b64Encode (flattenRGB imgrgb.pixels)⟩)

/-- What one `sendGIF(GIFType.LOCALFILE, [...])` run does (pixoo.py lines
1700-1721): it calls `resetGIFID()` once, then converts file number
`file` with `_fileToFrames(filename=filename[file], id=file)` (so with
the default target size 64 and frame cap 60) and sends every resulting
packet. -/
structure SendGIFRun where
  resetCalled : Bool
  packets : List (List GIFData)
  deriving DecidableEq, Repr

/-- Model of the `GIFType.LOCALFILE` arm of `sendGIF` for a list of
source files. -/
def sendGIFLocal (resizeContent : SourceFrame → List RGB)
    (files : List SourceImage) : SendGIFRun :=
  ⟨true, (List.range files.length).map (fun i =>
    fileToFrames resizeContent (files.getD i ⟨true, []⟩) i 64 60)⟩

/-! Helper lemmas. -/

theorem flattenRGB_length (l : List RGB) : (flattenRGB l).length = 3 * l.length := by
  induction l with
  | nil => rfl
  | cons p rest ih =>
    obtain ⟨r, g, b⟩ := p
    simp only [flattenRGB, List.length_cons, ih]
    omega

theorem flattenRGB_lt : ∀ (l : List RGB),
    (∀ p ∈ l, p.1 < 256 ∧ p.2.1 < 256 ∧ p.2.2 < 256) →
    ∀ x ∈ flattenRGB l, x < 256
  | [], _ => by simp [flattenRGB]
  | p :: rest, h => by
    obtain ⟨r, g, b⟩ := p
    have hp := h (r, g, b) (List.mem_cons_self _ _)
    have hrest := flattenRGB_lt rest (fun q hq => h q (List.mem_cons_of_mem _ hq))
    intro x hx
    simp only [flattenRGB, List.mem_cons] at hx
    rcases hx with rfl | rfl | rfl | hx
    · exact hp.1
    · exact hp.2.1
    · exact hp.2.2
    · exact hrest x hx

theorem b64_roundtrip : ∀ l : List Nat, (∀ x ∈ l, x < 256) →
    b64Decode (b64Encode l) = l
  | [], _ => rfl
  | [a], h => by
    have ha : a < 256 := h a (by simp)
    show [a / 4 * 4 + a % 4 * 16 / 16] = [a]
    simp only [List.cons.injEq, and_true]
    omega
  | [a, b], h => by
    have ha : a < 256 := h a (by simp)
    have hb : b < 256 := h b (by simp)
    have hy : ¬ (b % 16 * 4 = 64) := by omega
    show b64Decode [a / 4, a % 4 * 16 + b / 16, b % 16 * 4, 64] = [a, b]
    simp only [b64Decode]
    rw [if_neg hy]
    simp only [if_true, List.cons.injEq, and_true]
    omega
  | a :: b :: c :: rest, h => by
    have ha : a < 256 := h a (by simp)
    have hb : b < 256 := h b (by simp)
    have hc : c < 256 := h c (by simp)
    have hy : ¬ (b % 16 * 4 + c / 64 = 64) := by omega
    have hz : ¬ (c % 64 = 64) := by omega
    have ih := b64_roundtrip rest
      (fun x hx => h x (by simp [hx]))
    show b64Decode (a / 4 :: (a % 4 * 16 + b / 16) :: (b % 16 * 4 + c / 64)
      :: c % 64 :: b64Encode rest) = a :: b :: c :: rest
    simp only [b64Decode, if_neg hy, if_neg hz, ih, List.cons.injEq, and_true]
    omega

theorem pySlice_zero_cons3 (a b c : Nat) (rest : List Nat) :
    pySlice (a :: b :: c :: rest) 0 3 = [a, b, c] := by
  simp [pySlice]

theorem pySlice_add3 (a b c : Nat) (rest : List Nat) (i n : Nat) :
    pySlice (a :: b :: c :: rest) (i + 3) n = pySlice rest i n := by
  show ((a :: b :: c :: rest).drop (i + 1 + 1 + 1)).take n = (rest.drop i).take n
  simp [List.drop_succ_cons]

theorem pixelChunksOf_cons3 (a b c : Nat) (rest : List Nat) :
    pixelChunksOf (a :: b :: c :: rest) = [a, b, c] :: pixelChunksOf rest := by
  unfold pixelChunksOf pyRange
  have hcount : ((a :: b :: c :: rest).length - 1 + 3 - 1) / 3
      = (rest.length - 1 + 3 - 1) / 3 + 1 := by
    simp only [List.length_cons]
    omega
  rw [hcount, List.range_succ_eq_map]
  simp only [List.map_cons, List.map_map, Nat.zero_mul]
  rw [pySlice_zero_cons3]
  refine congrArg (fun t => [a, b, c] :: t) ?_
  refine List.map_congr_left ?_
  intro i _
  show pySlice (a :: b :: c :: rest) (Nat.succ i * 3) 3 = pySlice rest (i * 3) 3
  have : Nat.succ i * 3 = i * 3 + 3 := by omega
  rw [this, pySlice_add3]

theorem chunkPixels_flatten (l : List RGB) :
    chunkPixels (flattenRGB l) = .ok l := by
  induction l with
  | nil => rfl
  | cons p rest ih =>
    obtain ⟨r, g, b⟩ := p
    show chunkPixels (r :: g :: b :: flattenRGB rest) = .ok ((r, g, b) :: rest)
    unfold chunkPixels
    rw [pixelChunksOf_cons3]
    show (tuplesOf (pixelChunksOf (flattenRGB rest))).map
      (fun t => (r, g, b) :: t) = .ok ((r, g, b) :: rest)
    have : tuplesOf (pixelChunksOf (flattenRGB rest)) = .ok rest := ih
    rw [this]
    rfl

theorem chunkPixels_of_length3 : ∀ (n : Nat) (chunk : List Nat),
    chunk.length = 3 * n → ∃ l, chunkPixels chunk = .ok l ∧ l.length = n
  | 0, [], _ => ⟨[], rfl, rfl⟩
  | 0, _ :: _, h => by simp at h
  | n + 1, [], h => by simp at h
  | n + 1, [_], h => by simp at h; omega
  | n + 1, [_, _], h => by simp at h; omega
  | n + 1, a :: b :: c :: rest, h => by
    have hr : rest.length = 3 * n := by
      simp only [List.length_cons] at h
      omega
    obtain ⟨l, hl, hlen⟩ := chunkPixels_of_length3 n rest hr
    refine ⟨(a, b, c) :: l, ?_, by simp [hlen]⟩
    unfold chunkPixels
    rw [pixelChunksOf_cons3]
    show (tuplesOf (pixelChunksOf rest)).map (fun t => (a, b, c) :: t) = _
    rw [show tuplesOf (pixelChunksOf rest) = .ok l from hl]
    rfl

theorem buildFrames_ok (fs : Nat) : ∀ (chunks : List (List Nat)),
    (∀ c ∈ chunks, ∃ m, c.length = 3 * m ∧ m ≤ fs * fs) →
    ∃ frames, buildFrames fs chunks = .ok frames ∧ frames.length = chunks.length
  | [], _ => ⟨[], rfl, rfl⟩
  | chunk :: rest, h => by
    obtain ⟨m, hm, hfit⟩ := h chunk (List.mem_cons_self _ _)
    obtain ⟨pd, hpd, hpdlen⟩ := chunkPixels_of_length3 m chunk hm
    obtain ⟨frames, hf, hflen⟩ := buildFrames_ok fs rest
      (fun c hc => h c (List.mem_cons_of_mem _ hc))
    refine ⟨pd :: frames, ?_, by simp [hflen]⟩
    simp only [buildFrames, hpd, hf]
    rw [if_neg (show ¬ fs * fs < pd.length by omega)]
    rfl

theorem chunkDataOf_mem_length {payload : List Nat} {cs : Nat} (hcs : 0 < cs)
    (h3 : cs % 3 = 0) (hr : payload.length % cs % 3 = 0) :
    ∀ c ∈ chunkDataOf payload cs, ∃ m, c.length = 3 * m ∧ m ≤ cs / 3 := by
  intro c hc
  unfold chunkDataOf pyRange at hc
  simp only [List.map_map, List.mem_map, List.mem_range, Function.comp] at hc
  obtain ⟨k, hk, rfl⟩ := hc
  have hk1 : (k + 1) * cs ≤ payload.length + cs - 1 := by
    rw [← Nat.le_div_iff_mul_le hcs]
    omega
  have hkcs : k * cs < payload.length := by
    have : (k + 1) * cs = k * cs + cs := by ring
    omega
  have hslice : (pySlice payload (k * cs) cs).length
      = min cs (payload.length - k * cs) := by
    simp [pySlice]
  by_cases hfull : k * cs + cs ≤ payload.length
  · refine ⟨cs / 3, ?_, Nat.le_refl _⟩
    rw [hslice]
    omega
  · have hlast : payload.length % cs = payload.length - k * cs := by
      have h1 := Nat.add_mul_mod_self_left (payload.length - k * cs) cs k
      have h2 : payload.length - k * cs + cs * k = payload.length := by
        have h3 := Nat.mul_comm cs k
        omega
      rw [h2] at h1
      rw [h1]
      exact Nat.mod_eq_of_lt (by omega)
    refine ⟨(payload.length - k * cs) / 3, ?_, ?_⟩
    · rw [hslice]
      omega
    · refine Nat.div_le_div_right ?_
      omega

theorem chunkDataOf_length (payload : List Nat) (cs : Nat) :
    (chunkDataOf payload cs).length = (payload.length + cs - 1) / cs := by
  simp [chunkDataOf, pyRange]

theorem mergeAux_nil (frameSize speed : Nat) (cur : List RGB) (dur : Nat) :
    mergeAux frameSize speed cur dur [] = [(renderFrame frameSize cur, dur)] :=
  rfl

theorem mergeFrames_dup (frameSize speed : Nat) (f : List RGB)
    (rest : List (List RGB)) :
    mergeFrames frameSize speed (f :: f :: rest)
      = mergeAux frameSize speed f
          (speed + (if speed = 0 then 0 else speed)) rest := by
  have h : mergeFrames frameSize speed (f :: f :: rest)
      = if renderFrame frameSize f = renderFrame frameSize f then
          mergeAux frameSize speed f
            (speed + (if speed = 0 then 0 else speed)) rest
        else (renderFrame frameSize f, speed)
          :: mergeAux frameSize speed f speed rest := rfl
  rw [h, if_pos rfl]

theorem mergeFrames_pair (frameSize speed : Nat) (l : List RGB)
    (hfill : renderFrame frameSize l = l) :
    mergeFrames frameSize speed [l, l]
      = [(l, speed + (if speed = 0 then 0 else speed))] := by
  rw [show ([l, l] : List (List RGB)) = l :: l :: [] from rfl, mergeFrames_dup,
    mergeAux_nil, hfill]

theorem mergeAux_chain (frameSize speed : Nat) :
    ∀ (rest : List (List RGB)) (g : List RGB) (dur : Nat),
    List.Chain' (fun a b => renderFrame frameSize a ≠ renderFrame frameSize b)
      (g :: rest) →
    mergeAux frameSize speed g dur rest
      = (renderFrame frameSize g, dur)
          :: rest.map (fun x => (renderFrame frameSize x, speed))
  | [], _, _, _ => rfl
  | f :: rest2, g, dur, h => by
    rw [List.chain'_cons] at h
    unfold mergeAux
    rw [if_neg (Ne.symm h.1)]
    rw [mergeAux_chain frameSize speed rest2 f speed h.2]
    rfl

theorem imageDataToGIF_ok_shape {d : ImageData} {o : GIFOutput}
    (h : imageDataToGIF d = .ok o) :
    o.loop = 0 ∧
    o.frameSize = Nat.sqrt (d.fileData.length / d.picCount / 3) ∧
    ∃ f fs, o.frames = f :: fs ∧
      o.savedFrames = mergeFrames o.frameSize d.speed (f :: f :: fs) := by
  simp only [imageDataToGIF] at h
  split at h
  · exact absurd h (by simp)
  · split at h
    · exact absurd h (by simp)
    · split at h
      · exact absurd h (by simp)
      · split at h
        · exact absurd h (by simp)
        · rename_i images first tail heq
          rw [Except.ok.injEq] at h
          subst h
          exact ⟨rfl, rfl, first, tail, rfl, rfl⟩

theorem imageDataToGIF_single (d : ImageData) (l : List RGB)
    (hpc : d.picCount = 1) (hfd : d.fileData = flattenRGB l)
    (hne : l ≠ [])
    (hsq : Nat.sqrt l.length * Nat.sqrt l.length = l.length) :
    imageDataToGIF d = .ok ⟨Nat.sqrt l.length, [l],
      [(l, d.speed + (if d.speed = 0 then 0 else d.speed))], 0⟩ := by
  have hlen : d.fileData.length = 3 * l.length := by
    rw [hfd, flattenRGB_length]
  have hlpos : 0 < l.length := List.length_pos.mpr hne
  have hcs : d.fileData.length / d.picCount = 3 * l.length := by
    rw [hpc, Nat.div_one, hlen]
  have hchunks : chunkDataOf d.fileData (3 * l.length) = [d.fileData] := by
    unfold chunkDataOf pyRange
    have hcount : (d.fileData.length + 3 * l.length - 1) / (3 * l.length) = 1 :=
      Nat.div_eq_of_lt_le (by omega) (by omega)
    rw [hcount]
    show [pySlice d.fileData (0 * (3 * l.length)) (3 * l.length)] = [d.fileData]
    simp only [Nat.zero_mul, pySlice, List.drop_zero]
    rw [← hlen, List.take_length]
  simp only [imageDataToGIF, hcs]
  rw [if_neg (by omega : ¬ d.picCount = 0)]
  rw [if_neg (by omega : ¬ 3 * l.length = 0)]
  have hdiv3 : 3 * l.length / 3 = l.length := by omega
  rw [hdiv3, hchunks]
  have hcp : chunkPixels d.fileData = .ok l := by
    rw [hfd]
    exact chunkPixels_flatten l
  simp only [buildFrames, hcp]
  rw [if_neg (by omega : ¬ Nat.sqrt l.length * Nat.sqrt l.length < l.length)]
  show (Except.ok ⟨Nat.sqrt l.length, [l],
      mergeFrames (Nat.sqrt l.length) d.speed [l, l], 0⟩ :
      Except PyError GIFOutput)
    = Except.ok ⟨Nat.sqrt l.length, [l],
        [(l, d.speed + (if d.speed = 0 then 0 else d.speed))], 0⟩
  rw [mergeFrames_pair _ _ _ (by
    unfold renderFrame
    rw [show Nat.sqrt l.length * Nat.sqrt l.length - l.length = 0 by omega]
    simp)]

theorem fileToFrames_length (rc : SourceFrame → List RGB) (img : SourceImage)
    (id size maxF : Nat) :
    (fileToFrames rc img id size maxF).length = totalFramesOf img maxF := by
  simp [fileToFrames]

theorem fileToFrames_offsets (rc : SourceFrame → List RGB) (img : SourceImage)
    (id size maxF : Nat) :
    (fileToFrames rc img id size maxF).map (fun p => p.offset)
      = List.range (totalFramesOf img maxF) := by
  simp [fileToFrames, List.map_map, Function.comp_def]

theorem fileToFrames_ids (rc : SourceFrame → List RGB) (img : SourceImage)
    (id size maxF : Nat) :
    (fileToFrames rc img id size maxF).map (fun p => p.id)
      = List.replicate (totalFramesOf img maxF) id := by
  simp only [fileToFrames, List.map_map, Function.comp_def]
  rw [List.map_const']
  rw [List.length_range]

theorem fileToFrames_getElem (rc : SourceFrame → List RGB) (img : SourceImage)
    (id size maxF frame : Nat) (h : frame < totalFramesOf img maxF) :
    (fileToFrames rc img id size maxF)[frame]? = some
      ⟨(if size < (img.frames.getD frame ⟨0, 0, [], none⟩).width ∨
           size < (img.frames.getD frame ⟨0, 0, [], none⟩).height
        then (⟨size, size, rc (img.frames.getD frame ⟨0, 0, [], none⟩),
              (img.frames.getD frame ⟨0, 0, [], none⟩).duration⟩ : SourceFrame)
        else img.frames.getD frame ⟨0, 0, [], none⟩).width,
       frame, id,
       (match (img.frames.getD frame ⟨0, 0, [], none⟩).duration with
        | some d => d | none => 1000),
       totalFramesOf img maxF,
       b64Encode (flattenRGB
         (if size < (img.frames.getD frame ⟨0, 0, [], none⟩).width ∨
             size < (img.frames.getD frame ⟨0, 0, [], none⟩).height
          then (⟨size, size, rc (img.frames.getD frame ⟨0, 0, [], none⟩),
                (img.frames.getD frame ⟨0, 0, [], none⟩).duration⟩ : SourceFrame)
          else img.frames.getD frame ⟨0, 0, [], none⟩).pixels)⟩ := by
  simp only [fileToFrames, List.getElem?_map, List.getElem?_range h]
  rfl

/-! Claim theorems. -/

/-- C1, counterexample.  The claim says pixel reconstruction fails with
ReconstructionFailure whenever the payload length is not divisible by the
frame count or the per-frame chunk size divided by 3 is not a perfect
square, and that it never silently rounds.  Both parts are false at
concrete inputs: a 7-byte payload with frame count 2 (7 is not divisible
by 2; the chunk size is silently rounded down to 3 and an extra third
chunk is produced) reconstructs without any error, and an 8-byte payload
with frame count 2 (chunk size 4, and 4/3 is not an integer, hence not a
perfect square; the frame dimension is silently rounded down to 1)
also reconstructs without any error. -/
theorem c1_counterexample :
    (imageDataToGIF ⟨0, 0, 2, 1, [10, 20, 30, 40, 50, 60, 70]⟩).toOption.isSome
      = true ∧
    (imageDataToGIF ⟨0, 0, 2, 1, [1, 2, 3, 4, 5, 6, 7, 8]⟩).toOption.isSome
      = true := by
  exact ⟨rfl, rfl⟩

/-- C1, amended.  Pixel reconstruction silently rounds: the chunk size is
truncated to len/frameCount and the frame dimension to
sqrt(chunkSize/3), and reconstruction succeeds (with the truncated frame
size) whenever the frame count is nonzero, the truncated chunk size is
positive and divisible by 3, chunkSize/3 is a perfect square, and the
length of the trailing remainder chunk is divisible by 3 — in particular
on payload lengths that are not divisible by the frame count, which the
original claim said must fail. -/
theorem c1_amended_theorem (d : ImageData) (hpc : d.picCount ≠ 0)
    (hcs : 0 < d.fileData.length / d.picCount)
    (h3 : d.fileData.length / d.picCount % 3 = 0)
    (hsq : Nat.sqrt (d.fileData.length / d.picCount / 3) *
        Nat.sqrt (d.fileData.length / d.picCount / 3) =
        d.fileData.length / d.picCount / 3)
    (hr : d.fileData.length % (d.fileData.length / d.picCount) % 3 = 0) :
    ∃ o, imageDataToGIF d = .ok o ∧
      o.frameSize = Nat.sqrt (d.fileData.length / d.picCount / 3) := by
  have hL : 0 < d.fileData.length := by
    by_contra hL
    have h0 : d.fileData.length = 0 := by omega
    rw [h0] at hcs
    simp [Nat.zero_div] at hcs
  obtain ⟨frames, hbf, hflen⟩ := buildFrames_ok
    (Nat.sqrt (d.fileData.length / d.picCount / 3))
    (chunkDataOf d.fileData (d.fileData.length / d.picCount))
    (fun c hc => by
      obtain ⟨m, hm, hle⟩ := chunkDataOf_mem_length hcs h3 hr c hc
      exact ⟨m, hm, by rw [hsq]; exact hle⟩)
  have hchlen :
      0 < (chunkDataOf d.fileData (d.fileData.length / d.picCount)).length := by
    rw [chunkDataOf_length]
    have h1 : (1 : Nat) ≤
        (d.fileData.length + d.fileData.length / d.picCount - 1)
          / (d.fileData.length / d.picCount) := by
      rw [Nat.le_div_iff_mul_le hcs]
      omega
    omega
  simp only [imageDataToGIF]
  rw [if_neg hpc]
  rw [if_neg (by omega : ¬ d.fileData.length / d.picCount = 0)]
  rw [hbf]
  cases frames with
  | nil =>
    exfalso
    rw [List.length_nil] at hflen
    omega
  | cons f fs => exact ⟨_, rfl, rfl⟩

/-- C1, witness for the amended theorem: a 15-byte payload declared to
hold 4 frames (15 is not divisible by 4) reconstructs successfully with
the truncated chunk size 3 and frame dimension 1. -/
theorem c1_amended_witness :
    ∃ o, imageDataToGIF ⟨0, 0, 4, 1, List.replicate 15 0⟩ = .ok o ∧
      o.frameSize = Nat.sqrt ((List.replicate 15 (0 : Nat)).length / 4 / 3) :=
  c1_amended_theorem ⟨0, 0, 4, 1, List.replicate 15 0⟩ (by decide) (by decide)
    (by decide) (by decide) (by decide)

/-- C2: evaluating the dispatch of `_binFileToGIF` at each tag named by
the claim.  The claim says buffers with leading tags 0x1E, 0x0C, 0x1A and
0x00 all decode to the distinct unsupported-format outcome.  In the code
only 0x1a and 0x00 do; 0x1e and 0x0c fall through to the wildcard arm and
raise the unknown-file-type error, because the match compares the
lowercase string `f.read(1).hex()` against the uppercase literals `"1E"`
and `"0C"`, which can never match (the code clearly intends these tags to
be recognised: both appear again in the combined not-yet-supported arm).
A tag outside the table (0x05) is unknown, and the two outcomes are
distinct values. -/
theorem c2_dispatch_theorem :
    binFileDecode (fun l => l) (fun _ => none) [0x1e]
      = .error .unknownFileType ∧
    binFileDecode (fun l => l) (fun _ => none) [0x0c]
      = .error .unknownFileType ∧
    binFileDecode (fun l => l) (fun _ => none) [0x1a]
      = .error .filetypeNotSupported ∧
    binFileDecode (fun l => l) (fun _ => none) [0x00]
      = .error .filetypeNotSupported ∧
    binFileDecode (fun l => l) (fun _ => none) [0x05]
      = .error .unknownFileType ∧
    PyError.filetypeNotSupported ≠ PyError.unknownFileType :=
  ⟨rfl, rfl, rfl, rfl, rfl, by decide⟩

/-- C4, counterexample.  The claim says the artifact carries a per-frame
duration equal to the decoded speed value and that a single-frame input
produces a non-looping still.  Decoding a single-frame asset with speed
500 hands the writer the frame twice (`firstImage` plus
`append_images`); Pillow coalesces the identical duplicate, so the
written artifact is one frame whose duration is the combined 1000, not
the decoded 500, and the loop argument 0 (loop forever in the GIF
format) is still passed — so the per-frame-duration part of the claim is
false, and the written still carries the infinite-loop argument rather
than being non-looping. -/
theorem c4_counterexample :
    (imageDataToGIF ⟨16, 16, 1, 500, [1, 2, 3]⟩).toOption.map
      (fun o => (o.savedFrames, o.loop))
      = some ([([(1, 2, 3)], 1000)], 0) := rfl

/-- C4, amended.  The assembler always passes the infinite-loop argument
(loop = 0); because the duplicated first frame is coalesced by the
Pillow writer, the first written frame gets twice the decoded speed
(when the speed is nonzero) rather than the speed itself, so a
single-frame input produces a one-frame artifact with the doubled
duration that still carries the infinite-loop argument — not a
non-looping still with the decoded speed. -/
theorem c4_amended_theorem (d : ImageData) (o : GIFOutput)
    (h : imageDataToGIF d = .ok o) :
    o.loop = 0 ∧
    (∀ f, o.frames = [f] →
      o.savedFrames = [(renderFrame o.frameSize f,
        d.speed + (if d.speed = 0 then 0 else d.speed))]) := by
  obtain ⟨hl, -, f, fs, hf, hs⟩ := imageDataToGIF_ok_shape h
  refine ⟨hl, ?_⟩
  intro g hg
  rw [hf] at hg
  injection hg with h1 h2
  subst h1
  subst h2
  rw [hs, mergeFrames_dup, mergeAux_nil]

/-- C4, witness: the amended theorem applied to the concrete single-frame
decode of a 3-byte payload with speed 500, whose written artifact is the
one frame with duration 1000. -/
theorem c4_amended_witness :
    (GIFOutput.loop ⟨1, [[(1, 2, 3)]], [([(1, 2, 3)], 1000)], 0⟩) = 0 ∧
    (∀ f, (GIFOutput.frames ⟨1, [[(1, 2, 3)]], [([(1, 2, 3)], 1000)], 0⟩)
        = [f] →
      (GIFOutput.savedFrames ⟨1, [[(1, 2, 3)]], [([(1, 2, 3)], 1000)], 0⟩)
        = [(renderFrame
              (GIFOutput.frameSize ⟨1, [[(1, 2, 3)]], [([(1, 2, 3)], 1000)], 0⟩) f,
            (ImageData.speed ⟨16, 16, 1, 500, [1, 2, 3]⟩)
            + (if (ImageData.speed ⟨16, 16, 1, 500, [1, 2, 3]⟩) = 0 then 0
               else (ImageData.speed ⟨16, 16, 1, 500, [1, 2, 3]⟩)))]) :=
  c4_amended_theorem ⟨16, 16, 1, 500, [1, 2, 3]⟩
    ⟨1, [[(1, 2, 3)]], [([(1, 2, 3)], 1000)], 0⟩ rfl

/-- C10, counterexample.  The claim says the written artifact contains
N+1 frames with frame 0 appearing as both the first and the second
written frame.  The full frame list is indeed passed as `append_images`
after `firstImage = images[0]`, but the Pillow GIF writer coalesces
identical consecutive frames, so the duplicated frame 0 is never written
a second time: decoding a single-frame payload writes one frame (with
the durations of the two merged copies combined: 5 + 5 = 10), not the
claimed two. -/
theorem c10_counterexample :
    (imageDataToGIF ⟨0, 0, 1, 5, [9, 9, 9]⟩).toOption.map
      (fun o => (o.savedFrames, o.frames.length))
      = some ([([(9, 9, 9)], 10)], 1) := rfl

/-- C10, amended.  The entire frame list is appended after the first
frame, so the writer receives frame 0 twice — but Pillow merges
identical consecutive frames, so frame 0 is written once with twice the
shared duration (when the speed is nonzero) and, whenever no two
consecutive reconstructed frames have the same raster, the artifact
contains exactly N frames: frame 0 once at the head with the doubled
duration, then the remaining frames each with the decoded speed. -/
theorem c10_coalesced_theorem (d : ImageData) (o : GIFOutput)
    (h : imageDataToGIF d = .ok o)
    (hchain : List.Chain'
      (fun a b => renderFrame o.frameSize a ≠ renderFrame o.frameSize b)
      o.frames) :
    ∃ f fs, o.frames = f :: fs ∧
      o.savedFrames
        = (renderFrame o.frameSize f,
            d.speed + (if d.speed = 0 then 0 else d.speed))
          :: fs.map (fun x => (renderFrame o.frameSize x, d.speed)) ∧
      o.savedFrames.length = o.frames.length := by
  obtain ⟨-, -, f, fs, hf, hs⟩ := imageDataToGIF_ok_shape h
  rw [hf] at hchain
  rw [mergeFrames_dup, mergeAux_chain o.frameSize d.speed fs f _ hchain] at hs
  refine ⟨f, fs, hf, hs, ?_⟩
  rw [hf, hs]
  simp

/-- C10, witness: the amended theorem applied to a concrete two-frame
decode with two distinct frames and speed 5; the written artifact has
exactly two frames, the first with duration 10 and the second with
duration 5. -/
theorem c10_coalesced_witness :
    ∃ f fs,
      (GIFOutput.frames
        ⟨1, [[(1, 2, 3)], [(4, 5, 6)]],
          [([(1, 2, 3)], 10), ([(4, 5, 6)], 5)], 0⟩) = f :: fs ∧
      (GIFOutput.savedFrames
        ⟨1, [[(1, 2, 3)], [(4, 5, 6)]],
          [([(1, 2, 3)], 10), ([(4, 5, 6)], 5)], 0⟩)
        = (renderFrame
            (GIFOutput.frameSize
              ⟨1, [[(1, 2, 3)], [(4, 5, 6)]],
                [([(1, 2, 3)], 10), ([(4, 5, 6)], 5)], 0⟩) f,
           (ImageData.speed ⟨0, 0, 2, 5, [1, 2, 3, 4, 5, 6]⟩)
           + (if (ImageData.speed ⟨0, 0, 2, 5, [1, 2, 3, 4, 5, 6]⟩) = 0 then 0
              else (ImageData.speed ⟨0, 0, 2, 5, [1, 2, 3, 4, 5, 6]⟩)))
          :: fs.map (fun x =>
            (renderFrame
              (GIFOutput.frameSize
                ⟨1, [[(1, 2, 3)], [(4, 5, 6)]],
                  [([(1, 2, 3)], 10), ([(4, 5, 6)], 5)], 0⟩) x,
             (ImageData.speed ⟨0, 0, 2, 5, [1, 2, 3, 4, 5, 6]⟩))) ∧
      (GIFOutput.savedFrames
        ⟨1, [[(1, 2, 3)], [(4, 5, 6)]],
          [([(1, 2, 3)], 10), ([(4, 5, 6)], 5)], 0⟩).length
        = (GIFOutput.frames
            ⟨1, [[(1, 2, 3)], [(4, 5, 6)]],
              [([(1, 2, 3)], 10), ([(4, 5, 6)], 5)], 0⟩).length :=
  c10_coalesced_theorem ⟨0, 0, 2, 5, [1, 2, 3, 4, 5, 6]⟩
    ⟨1, [[(1, 2, 3)], [(4, 5, 6)]], [([(1, 2, 3)], 10), ([(4, 5, 6)], 5)], 0⟩
    rfl (List.chain'_cons.mpr ⟨by decide, List.chain'_singleton _⟩)

/-- C3: round-trip identity.  Encoding any single-frame 64 by 64 static
source image with `_fileToFrames` yields exactly one packet; base64
decoding of that packet carries the flattened pixel bytes; and feeding
those bytes through pixel reconstruction with frame count 1 reproduces
the original pixel sequence exactly (the single reconstructed frame is
the original pixel list, with frame dimension 64). -/
theorem c3_roundtrip_theorem (pixels : List RGB) (hlen : pixels.length = 4096)
    (hb : ∀ p ∈ pixels, p.1 < 256 ∧ p.2.1 < 256 ∧ p.2.2 < 256)
    (rc : SourceFrame → List RGB) (id spd : Nat) (dur : Option Nat) :
    ∃ pkt : GIFData,
      fileToFrames rc ⟨false, [⟨64, 64, pixels, dur⟩]⟩ id 64 60 = [pkt] ∧
      b64Decode pkt.data = flattenRGB pixels ∧
      imageDataToGIF ⟨64, 64, 1, spd, b64Decode pkt.data⟩
        = .ok ⟨64, [pixels],
            [(pixels, spd + (if spd = 0 then 0 else spd))], 0⟩ := by
  refine ⟨⟨64, 0, id, (match dur with | some d => d | none => 1000), 1,
    b64Encode (flattenRGB pixels)⟩, rfl, ?_, ?_⟩
  · exact b64_roundtrip _ (flattenRGB_lt pixels hb)
  · show imageDataToGIF
      ⟨64, 64, 1, spd, b64Decode (b64Encode (flattenRGB pixels))⟩ = _
    rw [b64_roundtrip _ (flattenRGB_lt pixels hb)]
    have h64 : Nat.sqrt pixels.length = 64 := by
      rw [hlen, show (4096 : Nat) = 64 * 64 by norm_num, Nat.sqrt_eq]
    have hmain := imageDataToGIF_single ⟨64, 64, 1, spd, flattenRGB pixels⟩
      pixels rfl rfl
      (by intro hnil; rw [hnil] at hlen; simp at hlen)
      (by rw [h64, hlen])
    rw [h64] at hmain
    exact hmain

/-- C3, witness: the theorem applied to the constant black 64 by 64
frame. -/
theorem c3_roundtrip_witness :
    ∃ pkt : GIFData,
      fileToFrames (fun _ => [])
        ⟨false, [⟨64, 64, List.replicate 4096 (0, 0, 0), none⟩]⟩ 0 64 60
        = [pkt] ∧
      b64Decode pkt.data = flattenRGB (List.replicate 4096 (0, 0, 0)) ∧
      imageDataToGIF ⟨64, 64, 1, 7, b64Decode pkt.data⟩
        = .ok ⟨64, [List.replicate 4096 (0, 0, 0)],
            [(List.replicate 4096 (0, 0, 0), 14)], 0⟩ :=
  c3_roundtrip_theorem (List.replicate 4096 (0, 0, 0))
    (by rw [List.length_replicate])
    (fun p hp => by rw [List.eq_of_mem_replicate hp]; exact ⟨by norm_num, by norm_num, by norm_num⟩)
    (fun _ => []) 0 7 none

/-- C5: frame cap.  When the source has an `n_frames` attribute and more
frames than `maxFrames`, `_fileToFrames` succeeds and emits exactly
`maxFrames` packets whose offsets are 0 through maxFrames-1 in order;
frames beyond the cap are dropped (the model is total, so no error is
possible). -/
theorem c5_frame_cap_theorem (rc : SourceFrame → List RGB) (img : SourceImage)
    (id size maxF : Nat) (hn : img.hasNFrames = true)
    (hcap : maxF < img.frames.length) :
    (fileToFrames rc img id size maxF).length = maxF ∧
    (fileToFrames rc img id size maxF).map (fun p => p.offset)
      = List.range maxF := by
  have htot : totalFramesOf img maxF = maxF := by
    simp [totalFramesOf, hn, hcap]
  exact ⟨by rw [fileToFrames_length, htot],
    by rw [fileToFrames_offsets, htot]⟩

/-- C5, witness: a 100-frame source encoded with maxFrames = 60 yields
60 packets with offsets 0..59. -/
theorem c5_frame_cap_witness :
    (fileToFrames (fun _ => [])
      ⟨true, List.replicate 100 ⟨1, 1, [(0, 0, 0)], none⟩⟩ 0 64 60).length = 60 ∧
    (fileToFrames (fun _ => [])
      ⟨true, List.replicate 100 ⟨1, 1, [(0, 0, 0)], none⟩⟩ 0 64 60).map
        (fun p => p.offset) = List.range 60 :=
  c5_frame_cap_theorem (fun _ => [])
    ⟨true, List.replicate 100 ⟨1, 1, [(0, 0, 0)], none⟩⟩ 0 64 60 rfl (by simp)

/-- C6, counterexample.  The claim says every encoded frame is an exact
target-by-target square, in particular that a 40 by 64 source at target
size 64 is padded to 64 by 64.  In the code the resize-and-pad branch
runs only when a dimension exceeds the target, so a 40 by 64 source at
target 64 is emitted unchanged: its packet reports size 40, not 64. -/
theorem c6_counterexample :
    (fileToFrames (fun _ => [])
      ⟨false, [⟨40, 64, List.replicate 2560 (0, 0, 0), none⟩]⟩ 0 64 60).map
        (fun p => p.size) = [40] := rfl

/-- C6, amended.  A frame is shrunk and padded to an exact
target-by-target square only when one of its dimensions exceeds the
target size; a frame already within the target is emitted at its
original dimensions with its pixel content unchanged (so its packet
reports the original width, not the target). -/
theorem c6_amended_theorem (rc : SourceFrame → List RGB) (img : SourceImage)
    (id size maxF frame : Nat) (h : frame < totalFramesOf img maxF) :
    ((img.frames.getD frame ⟨0, 0, [], none⟩).width ≤ size ∧
     (img.frames.getD frame ⟨0, 0, [], none⟩).height ≤ size →
      (fileToFrames rc img id size maxF)[frame]? = some
        ⟨(img.frames.getD frame ⟨0, 0, [], none⟩).width, frame, id,
         (match (img.frames.getD frame ⟨0, 0, [], none⟩).duration with
          | some d => d | none => 1000),
         totalFramesOf img maxF,
         b64Encode (flattenRGB (img.frames.getD frame ⟨0, 0, [], none⟩).pixels)⟩) ∧
    (size < (img.frames.getD frame ⟨0, 0, [], none⟩).width ∨
     size < (img.frames.getD frame ⟨0, 0, [], none⟩).height →
      ((fileToFrames rc img id size maxF)[frame]?).map (fun p => p.size)
        = some size) := by
  have hg := fileToFrames_getElem rc img id size maxF frame h
  constructor
  · intro hcond
    rw [hg]
    rw [if_neg (by omega :
      ¬ (size < (img.frames.getD frame ⟨0, 0, [], none⟩).width ∨
         size < (img.frames.getD frame ⟨0, 0, [], none⟩).height))]
  · intro hcond
    rw [hg, if_pos hcond]
    rfl

/-- C6, witness for the amended theorem: the 40 by 64 source within
target 64 is emitted unchanged with packet size 40. -/
theorem c6_amended_witness :
    (fileToFrames (fun _ => [])
      ⟨false, [⟨40, 64, List.replicate 2560 (0, 0, 0), none⟩]⟩ 0 64 60)[0]?
      = some ⟨40, 0, 0, 1000, 1,
          b64Encode (flattenRGB (List.replicate 2560 (0, 0, 0)))⟩ :=
  (c6_amended_theorem (fun _ => [])
    ⟨false, [⟨40, 64, List.replicate 2560 (0, 0, 0), none⟩]⟩ 0 64 60 0
    (by decide)).1 ⟨by decide, by decide⟩

/-- C7: tag 0x11 decompression bound.  With the LZO call modelled at the
python-lzo interface (decompression with an explicit expected length
raises lzo.error unless the stream decompresses to exactly that many
bytes), decoding a tag-0x11 asset fails with the decompression error
when the decompressed length differs from width*height*3 (width and
height being the header unit bytes times 16), and otherwise succeeds
with a payload of exactly width*height*3 bytes. -/
theorem c7_decompression_theorem (decrypt : List Nat → List Nat)
    (lzoContent : List Nat → Option (List Nat)) (w h l1 l2 l3 l4 : Nat)
    (payload out : List Nat)
    (hlzo : lzoContent (decrypt payload) = some out) :
    (out.length ≠ (w * 16) * (h * 16) * 3 →
      binFileDecode decrypt lzoContent
        (0x11 :: w :: h :: l1 :: l2 :: l3 :: l4 :: payload)
        = .error .lzoError) ∧
    (out.length = (w * 16) * (h * 16) * 3 →
      ∃ fd : ImageData,
        binFileDecode decrypt lzoContent
          (0x11 :: w :: h :: l1 :: l2 :: l3 :: l4 :: payload) = .ok fd ∧
        fd.width = w * 16 ∧ fd.height = h * 16 ∧ fd.fileData = out ∧
        fd.fileData.length = fd.width * fd.height * 3) := by
  have hstep : binFileDecode decrypt lzoContent
      (0x11 :: w :: h :: l1 :: l2 :: l3 :: l4 :: payload)
      = match lzoContent (decrypt payload) with
        | none => .error .lzoError
        | some o =>
          if o.length = (w * 16) * (h * 16) * 3 then
            .ok ⟨w * 16, h * 16, 1, 0, o⟩
          else .error .lzoError := rfl
  constructor
  · intro hne
    rw [hstep, hlzo]
    exact if_neg hne
  · intro heq
    refine ⟨⟨w * 16, h * 16, 1, 0, out⟩, ?_, rfl, rfl, rfl, heq⟩
    rw [hstep, hlzo]
    exact if_pos heq

/-- C7, witness: a 16 by 16 tag-0x11 asset whose stream decompresses to
exactly 768 bytes decodes successfully with a 768-byte payload. -/
theorem c7_decompression_witness :
    ∃ fd : ImageData,
      binFileDecode (fun l => l) (fun l => some l)
        (0x11 :: 1 :: 1 :: 0 :: 0 :: 0 :: 0 :: List.replicate 768 5)
        = .ok fd ∧
      fd.width = 1 * 16 ∧ fd.height = 1 * 16 ∧
      fd.fileData = List.replicate 768 5 ∧
      fd.fileData.length = fd.width * fd.height * 3 :=
  (c7_decompression_theorem (fun l => l) (fun l => some l) 1 1 0 0 0 0
    (List.replicate 768 5) (List.replicate 768 5) rfl).2
    (by rw [List.length_replicate])

/-- C8: multi-source sequencing.  One `sendGIF(GIFType.LOCALFILE, [...])`
run calls the sequence-id reset once before converting any source, and
the packets of source number i all carry id i, with offsets 0..N-1 in
order within that source; in particular three sources get ids 0, 1
and 2. -/
theorem c8_sequence_ids_theorem (rc : SourceFrame → List RGB)
    (files : List SourceImage) (i : Nat) (hi : i < files.length) :
    (sendGIFLocal rc files).resetCalled = true ∧
    (sendGIFLocal rc files).packets.length = files.length ∧
    ∃ pkts, (sendGIFLocal rc files).packets[i]? = some pkts ∧
      pkts.map (fun p => p.id) = List.replicate pkts.length i ∧
      pkts.map (fun p => p.offset) = List.range pkts.length := by
  refine ⟨rfl, by simp [sendGIFLocal], ?_⟩
  refine ⟨fileToFrames rc (files.getD i ⟨true, []⟩) i 64 60, ?_, ?_, ?_⟩
  · simp [sendGIFLocal, List.getElem?_map, List.getElem?_range hi]
  · rw [fileToFrames_ids, fileToFrames_length]
  · rw [fileToFrames_offsets, fileToFrames_length]

/-- C8, witness: the theorem applied to a concrete three-source run, at
the third source (id 2). -/
theorem c8_sequence_ids_witness :
    (sendGIFLocal (fun _ => [])
      [⟨false, [⟨1, 1, [(0, 0, 0)], none⟩]⟩,
       ⟨false, [⟨1, 1, [(0, 0, 0)], none⟩]⟩,
       ⟨false, [⟨1, 1, [(0, 0, 0)], none⟩]⟩]).resetCalled = true ∧
    (sendGIFLocal (fun _ => [])
      [⟨false, [⟨1, 1, [(0, 0, 0)], none⟩]⟩,
       ⟨false, [⟨1, 1, [(0, 0, 0)], none⟩]⟩,
       ⟨false, [⟨1, 1, [(0, 0, 0)], none⟩]⟩]).packets.length = 3 ∧
    ∃ pkts, (sendGIFLocal (fun _ => [])
      [⟨false, [⟨1, 1, [(0, 0, 0)], none⟩]⟩,
       ⟨false, [⟨1, 1, [(0, 0, 0)], none⟩]⟩,
       ⟨false, [⟨1, 1, [(0, 0, 0)], none⟩]⟩]).packets[2]? = some pkts ∧
      pkts.map (fun p => p.id) = List.replicate pkts.length 2 ∧
      pkts.map (fun p => p.offset) = List.range pkts.length :=
  c8_sequence_ids_theorem (fun _ => [])
    [⟨false, [⟨1, 1, [(0, 0, 0)], none⟩]⟩,
     ⟨false, [⟨1, 1, [(0, 0, 0)], none⟩]⟩,
     ⟨false, [⟨1, 1, [(0, 0, 0)], none⟩]⟩] 2 (by decide)
